import Mathlib

/-!
Verification of the MarineScope resolution-and-enrichment pipeline
(src/MarineScope.py) against its natural-language specification.

The Python source is shallowly embedded: the response cache (`APICache`),
the retrying HTTP layer (`api_request_with_cache`), the text heuristics
(depth extraction, ocean-basin binning, scientific-name shape test), the
name-resolution fallback chain (`search_worms_species_fast`), the browse
sampler (`browse_marine_animals_fast`) and the parallel enrichment
aggregator (`get_complete_species_data_parallel`) become pure Lean
functions.  Network endpoints, the thread pool and the shuffle are
modelled as explicit oracle parameters (a function from attempt number to
response, the four fetch outcomes, the post-shuffle seed order); times are
natural numbers and JSON numbers are exact rationals.
-/

namespace MarineScope

/-! ## ResponseCache: class APICache (MarineScope.py lines 101-130)

A Python `OrderedDict` entry `cache[key] = (value, timestamp)` becomes a
`CEntry` in a list ordered front = least recently used, back = most
recently used.  Stored values have type `Option V` because the source
stores `None` for negative results (`API_CACHE.set(cache_key, None)`). -/

structure CEntry (V : Type) where
  key : String
  val : Option V
  ts : Nat
deriving DecidableEq, Repr

structure APICache (V : Type) where
  cache : List (CEntry V)
  max_size : Nat
  ttl : Nat
deriving DecidableEq, Repr

/-- `APICache.get` (lines 107-117): on a hit within the TTL, move the entry
to the most-recently-used end and return its stored value (which may itself
be `none`, the cached negative); on an expired hit delete the entry and
return `none`; on a miss return `none`.  `move_to_end` keeps the original
timestamp. -/
def APICache.get {V : Type} (c : APICache V) (k : String) (now : Nat) :
    Option V × APICache V :=
  match c.cache.find? (fun e => e.key == k) with
  | some e =>
    if now - e.ts < c.ttl then
      (e.val, { c with cache := c.cache.filter (fun e2 => !(e2.key == k)) ++ [e] })
    else
      (none, { c with cache := c.cache.filter (fun e2 => !(e2.key == k)) })
  | none => (none, c)

/-- `APICache.set` (lines 119-125): an existing key is moved to the end and
overwritten; otherwise, if the cache is at capacity the front entry (least
recently used) is popped first, and the new entry is appended at the end
with a fresh timestamp. -/
def APICache.set {V : Type} (c : APICache V) (k : String) (v : Option V) (now : Nat) :
    APICache V :=
  if c.cache.any (fun e => e.key == k) then
    { c with cache := c.cache.filter (fun e => !(e.key == k)) ++ [⟨k, v, now⟩] }
  else if c.max_size ≤ c.cache.length then
    { c with cache := c.cache.drop 1 ++ [⟨k, v, now⟩] }
  else
    { c with cache := c.cache ++ [⟨k, v, now⟩] }

/-- A sequence of `get` operations (key, time) applied in order, keeping
only the evolving cache state. -/
def applyGets {V : Type} (c : APICache V) : List (String × Nat) → APICache V
  | [] => c
  | (k, t) :: rest => applyGets (c.get k t).2 rest

/-! ## FetchClient: api_request_with_cache (lines 562-660)

One network attempt is the oracle value `net attempt`; `http code body`
carries the status code and, for success codes, `some v` when the body is
non-empty and parses as JSON, `none` when the body is empty or fails to
parse.  Sleeps (exponential backoff for HTTP 429, fixed half-second for
timeouts and transport errors) are recorded in seconds in an output list,
and the number of attempts actually issued is counted. -/

inductive NetResponse (V : Type) where
  | http (code : Nat) (body : Option V)
  | timeout
  | transportError
deriving DecidableEq, Repr

structure ReqResult (V : Type) where
  value : Option V
  cache : APICache V
  sleeps : List ℚ
  networkCalls : Nat

/-- The retry loop `for attempt in range(retries + 1)` of
`api_request_with_cache`.  `fuel` is the number of loop iterations left
(initially `retries + 1`); the unreachable fall-through after the loop
(line 659) is the `fuel = 0` case.  Branches in source order: HTTP 204 and
404 cache the absence and return (lines 605-613); other codes ≥ 400 retry
with backoff `2 ^ (attempt + 1)` only for 429 with budget left (lines
615-621); an empty body caches absence (lines 623-625); a parsed JSON
payload is cached and returned, a parse failure caches absence (lines
629-636); timeouts and transport errors retry after 0.5 s within the
budget (lines 638-657). -/
def runAttempts {V : Type} (key : String) (net : Nat → NetResponse V)
    (retries now : Nat) :
    Nat → Nat → APICache V → List ℚ → Nat → ReqResult V
  | 0, _, c, sleeps, calls => ⟨none, c.set key none now, sleeps, calls⟩
  | fuel + 1, attempt, c, sleeps, calls =>
    match net attempt with
    | .http code body =>
      if code = 204 ∨ code = 404 then
        ⟨none, c.set key none now, sleeps, calls + 1⟩
      else if 400 ≤ code then
        if code = 429 ∧ attempt < retries then
          runAttempts key net retries now fuel (attempt + 1) c
            (sleeps ++ [(2 : ℚ) ^ (attempt + 1)]) (calls + 1)
        else
          ⟨none, c.set key none now, sleeps, calls + 1⟩
      else
        match body with
        | some v => ⟨some v, c.set key (some v) now, sleeps, calls + 1⟩
        | none => ⟨none, c.set key none now, sleeps, calls + 1⟩
    | .timeout =>
      if attempt < retries then
        runAttempts key net retries now fuel (attempt + 1) c
          (sleeps ++ [(1 : ℚ) / 2]) (calls + 1)
      else
        ⟨none, c.set key none now, sleeps, calls + 1⟩
    | .transportError =>
      if attempt < retries then
        runAttempts key net retries now fuel (attempt + 1) c
          (sleeps ++ [(1 : ℚ) / 2]) (calls + 1)
      else
        ⟨none, c.set key none now, sleeps, calls + 1⟩

/-- `api_request_with_cache` (lines 562-660): consult the cache first and
return a non-`None` cached value without touching the network; otherwise
run the attempt loop.  The cache-side mutation performed by the initial
`get` (LRU reordering or expiry deletion) persists in both branches. -/
def apiRequestWithCache {V : Type} (c : APICache V) (key : String)
    (net : Nat → NetResponse V) (retries now : Nat) : ReqResult V :=
  match (c.get key now).1 with
  | some v => ⟨some v, (c.get key now).2, [], 0⟩
  | none => runAttempts key net retries now (retries + 1) 0 (c.get key now).2 [] 0

/-- A response the spec calls a definitive negative: upstream HTTP 404,
HTTP 204, or a success code with an empty (or unparseable) body. -/
def isDefinitiveNegative {V : Type} : NetResponse V → Bool
  | .http code body => (code == 204) || (code == 404) || (decide (code < 400) && body.isNone)
  | _ => false

/-! ### Cache helper lemmas -/

theorem find?_append_key {V : Type} (L : List (CEntry V)) (k : String) (v : Option V) (t : Nat)
    (hL : ∀ e ∈ L, (e.key == k) = false) :
    (L ++ [(⟨k, v, t⟩ : CEntry V)]).find? (fun e => e.key == k) = some ⟨k, v, t⟩ := by
  induction L with
  | nil => simp [List.find?]
  | cons a L ih =>
    have ha := hL a (List.mem_cons_self a L)
    simp only [List.cons_append, List.find?, ha]
    exact ih (fun e he => hL e (List.mem_cons_of_mem a he))

theorem set_shape {V : Type} (c : APICache V) (k : String) (v : Option V) (t : Nat) :
    ∃ L, (c.set k v t).cache = L ++ [(⟨k, v, t⟩ : CEntry V)] ∧
      ∀ e ∈ L, (e.key == k) = false := by
  unfold APICache.set
  by_cases h1 : c.cache.any (fun e => e.key == k)
  · refine ⟨c.cache.filter (fun e => !(e.key == k)), by simp [h1], ?_⟩
    intro e he
    have := (List.mem_filter.mp he).2
    simpa using this
  · have hall : ∀ e ∈ c.cache, (e.key == k) = false := by
      intro e he
      by_contra hcon
      exact h1 (List.any_eq_true.mpr ⟨e, he, by simpa using hcon⟩)
    by_cases h2 : c.max_size ≤ c.cache.length
    · refine ⟨c.cache.drop 1, by simp [h1, h2], ?_⟩
      intro e he
      exact hall e (List.mem_of_mem_drop he)
    · exact ⟨c.cache, by simp [h1, h2], hall⟩

theorem set_find_self {V : Type} (c : APICache V) (k : String) (v : Option V) (t : Nat) :
    (c.set k v t).cache.find? (fun e => e.key == k) = some ⟨k, v, t⟩ := by
  obtain ⟨L, hshape, hfree⟩ := set_shape c k v t
  rw [hshape]
  exact find?_append_key L k v t hfree

theorem set_ttl {V : Type} (c : APICache V) (k : String) (v : Option V) (t : Nat) :
    (c.set k v t).ttl = c.ttl := by
  unfold APICache.set
  split <;> [rfl; skip]
  split <;> rfl

theorem set_key_unique {V : Type} (c : APICache V) (k : String) (v : Option V) (t : Nat)
    (e : CEntry V) (he : e ∈ (c.set k v t).cache) (hk : e.key = k) :
    e = (⟨k, v, t⟩ : CEntry V) := by
  obtain ⟨L, hshape, hfree⟩ := set_shape c k v t
  rw [hshape] at he
  rcases List.mem_append.mp he with h | h
  · have := hfree e h
    simp [hk] at this
  · simpa using h

theorem get_fresh_after_set {V : Type} (c : APICache V) (k : String) (v : Option V)
    (t t2 : Nat) (h : t2 - t < c.ttl) :
    ((c.set k v t).get k t2).1 = v := by
  unfold APICache.get
  rw [set_find_self]
  simp only [set_ttl]
  simp [h]

theorem get_mem_subset {V : Type} (c : APICache V) (k : String) (now : Nat)
    (e : CEntry V) (he : e ∈ ((c.get k now).2).cache) : e ∈ c.cache := by
  unfold APICache.get at he
  rcases hfind : c.cache.find? (fun x => x.key == k) with _ | e0
  · rw [hfind] at he
    exact he
  · rw [hfind] at he
    by_cases hfr : now - e0.ts < c.ttl
    · simp only [hfr, if_true] at he
      rcases List.mem_append.mp he with h | h
      · exact List.mem_of_mem_filter h
      · have : e = e0 := by simpa using h
        subst this
        exact List.mem_of_find?_eq_some hfind
    · simp only [hfr, if_false] at he
      exact List.mem_of_mem_filter he

theorem get_ttl {V : Type} (c : APICache V) (k : String) (now : Nat) :
    ((c.get k now).2).ttl = c.ttl := by
  unfold APICache.get
  rcases hfind : c.cache.find? (fun x => x.key == k) with _ | e0 <;> rw [hfind]
  by_cases hfr : now - e0.ts < c.ttl <;> simp [hfr]

theorem applyGets_mem_subset {V : Type} (ops : List (String × Nat)) :
    ∀ (c : APICache V) (e : CEntry V), e ∈ (applyGets c ops).cache → e ∈ c.cache := by
  induction ops with
  | nil => intro c e he; exact he
  | cons op rest ih =>
    intro c e he
    exact get_mem_subset c op.1 op.2 e (ih _ e he)

theorem applyGets_ttl {V : Type} (ops : List (String × Nat)) :
    ∀ c : APICache V, (applyGets c ops).ttl = c.ttl := by
  induction ops with
  | nil => intro c; rfl
  | cons op rest ih =>
    intro c
    rw [applyGets]
    rw [ih]
    exact get_ttl c op.1 op.2

theorem filter_not_any {V : Type} (L : List (CEntry V)) (k : String) :
    (L.filter (fun e => !(e.key == k))).any (fun e => e.key == k) = false := by
  rw [List.any_eq_false]
  intro e he
  have := (List.mem_filter.mp he).2
  simpa using this

theorem get_cached_none {V : Type} (c : APICache V) (k : String)
    (t t2 : Nat) (hfind : c.cache.find? (fun e => e.key == k) = some ⟨k, none, t⟩) :
    ((c.get k t2).1 : Option V) = none := by
  unfold APICache.get
  rw [hfind]
  by_cases hfr : t2 - t < c.ttl <;> simp [hfr]

theorem runAttempts_calls_mono {V : Type} (key : String) (net : Nat → NetResponse V)
    (retries now : Nat) :
    ∀ (fuel attempt : Nat) (c : APICache V) (sleeps : List ℚ) (calls : Nat),
      calls ≤ (runAttempts key net retries now fuel attempt c sleeps calls).networkCalls := by
  intro fuel
  induction fuel with
  | zero => intro attempt c sleeps calls; simp [runAttempts]
  | succ fuel ih =>
    intro attempt c sleeps calls
    rcases hn : net attempt with ⟨code, body⟩ | _ | _ <;>
      simp only [runAttempts, hn]
    · split
      · simp
      · split
        · split
          · exact le_trans (Nat.le_succ calls) (ih _ _ _ _)
          · simp
        · rcases body with _ | v <;> simp
    · split
      · exact le_trans (Nat.le_succ calls) (ih _ _ _ _)
      · simp
    · split
      · exact le_trans (Nat.le_succ calls) (ih _ _ _ _)
      · simp

theorem runAttempts_calls_pos {V : Type} (key : String) (net : Nat → NetResponse V)
    (retries now : Nat) (fuel attempt : Nat) (c : APICache V) (sleeps : List ℚ)
    (calls : Nat) :
    calls + 1 ≤ (runAttempts key net retries now (fuel + 1) attempt c sleeps calls).networkCalls := by
  rcases hn : net attempt with ⟨code, body⟩ | _ | _ <;>
    simp only [runAttempts, hn]
  · split
    · simp
    · split
      · split
        · exact runAttempts_calls_mono key net retries now _ _ _ _ _
        · simp
      · rcases body with _ | v <;> simp
  · split
    · exact runAttempts_calls_mono key net retries now _ _ _ _ _
    · simp
  · split
    · exact runAttempts_calls_mono key net retries now _ _ _ _ _
    · simp

theorem filter_key_length {V : Type} (L : List (CEntry V)) (k : String)
    (hnd : (L.map (fun x => x.key)).Nodup) (e : CEntry V) (he : e ∈ L) (hk : e.key = k) :
    (L.filter (fun x => !(x.key == k))).length + 1 = L.length := by
  induction L with
  | nil => cases he
  | cons a L ih =>
    simp only [List.map_cons, List.nodup_cons] at hnd
    by_cases hak : a.key = k
    · have htail : ∀ x ∈ L, (x.key == k) = false := by
        intro x hx
        by_contra hcon
        have hxk : x.key = k := by simpa using (Bool.not_eq_false _).mp hcon
        exact hnd.1 (by rw [hak, ← hxk]; exact List.mem_map.mpr ⟨x, hx, rfl⟩)
      have : L.filter (fun x => !(x.key == k)) = L :=
        List.filter_eq_self.mpr (fun x hx => by simp [htail x hx])
      simp [List.filter_cons, hak, this]
    · rcases List.mem_cons.mp he with rfl | hmem
      · exact absurd hk hak
      · have hbeq : (a.key == k) = false := by simpa using hak
        have := ih hnd.2 hmem
        simp only [List.filter_cons, hbeq, Bool.not_false, if_true, List.length_cons]
        omega

theorem get_max_size {V : Type} (c : APICache V) (k : String) (now : Nat) :
    ((c.get k now).2).max_size = c.max_size := by
  unfold APICache.get
  rcases hfind : c.cache.find? (fun x => x.key == k) with _ | e0 <;> rw [hfind]
  by_cases hfr : now - e0.ts < c.ttl <;> simp [hfr]

/-! ## Claim C7 -/

/-- C7: for every cache key, a `get` within the TTL after a `set` returns the
stored value; a `get` performed once the TTL has elapsed since the insertion
returns absent and removes the entry from the cache — no matter which `get`
operations (which never refresh the insertion timestamp) happened in
between. -/
theorem c7_cache_ttl_expiry {V : Type} (c : APICache V) (k : String) (v : Option V)
    (t ta tb : Nat) (ops : List (String × Nat))
    (hfresh : ta - t < c.ttl) (hexp : c.ttl ≤ tb - t) :
    ((c.set k v t).get k ta).1 = v ∧
    ((applyGets (c.set k v t) ops).get k tb).1 = none ∧
    ((applyGets (c.set k v t) ops).get k tb).2.cache.any (fun e => e.key == k) = false := by
  refine ⟨get_fresh_after_set c k v t ta hfresh, ?_⟩
  rcases hf : (applyGets (c.set k v t) ops).cache.find? (fun e => e.key == k) with _ | e
  · constructor
    · unfold APICache.get
      rw [hf]
    · unfold APICache.get
      rw [hf]
      rw [List.any_eq_false]
      intro x hx
      exact List.find?_eq_none.mp hf x hx
  · have hkey : e.key = k := by simpa using List.find?_some hf
    have hmem : e ∈ (c.set k v t).cache :=
      applyGets_mem_subset ops _ e (List.mem_of_find?_eq_some hf)
    have hee : e = (⟨k, v, t⟩ : CEntry V) := set_key_unique c k v t e hmem hkey
    have httl : (applyGets (c.set k v t) ops).ttl = c.ttl := by
      rw [applyGets_ttl, set_ttl]
    have hnotfresh : ¬ (tb - e.ts < (applyGets (c.set k v t) ops).ttl) := by
      have h3 : e.ts = t := by rw [hee]
      rw [httl, h3]
      omega
    constructor
    · unfold APICache.get
      rw [hf]
      simp [hnotfresh]
    · unfold APICache.get
      rw [hf]
      simp only [hnotfresh, if_false]
      exact filter_not_any _ k

def c7CacheW : APICache Nat := ⟨[], 2000, 3600⟩

/-- Witness for C7 at a concrete cache, key, value and times. -/
theorem c7_cache_ttl_expiry_witness :
    ((c7CacheW.set "k" (some 5) 0).get "k" 10).1 = some 5 ∧
    ((applyGets (c7CacheW.set "k" (some 5) 0) [("k", 100), ("x", 200)]).get "k" 3650).1 = none ∧
    ((applyGets (c7CacheW.set "k" (some 5) 0) [("k", 100), ("x", 200)]).get "k" 3650).2.cache.any
      (fun e => e.key == "k") = false :=
  c7_cache_ttl_expiry c7CacheW "k" (some 5) 0 10 3650 [("k", 100), ("x", 200)]
    (by decide) (by decide)

/-! ## Claim C6 -/

/-- C6: on a cache at capacity, a `set` of a new key evicts exactly the
least-recently-used (front) entry before inserting, a successful fresh `get`
moves its entry to the most-recently-used (back) position, and therefore a
`get` on a key immediately before the insertion protects that key from being
the evicted one (given at least two entries, so that the refreshed entry is
not itself the front one). -/
theorem c6_lru_eviction_protects {V : Type} (c : APICache V) (k k2 : String)
    (v : Option V) (e : CEntry V) (t t2 : Nat)
    (hnd : (c.cache.map (fun x => x.key)).Nodup)
    (hfind : c.cache.find? (fun x => x.key == k2) = some e)
    (hfresh : t - e.ts < c.ttl)
    (hlen2 : 2 ≤ c.cache.length)
    (hcap : c.max_size ≤ c.cache.length)
    (hnew : ∀ x ∈ c.cache, (x.key == k) = false) :
    ((c.get k2 t).2.cache = c.cache.filter (fun x => !(x.key == k2)) ++ [e]) ∧
    (((c.get k2 t).2.set k v t2).cache = (c.get k2 t).2.cache.drop 1 ++ [⟨k, v, t2⟩]) ∧
    ((((c.get k2 t).2.set k v t2).cache.any (fun x => x.key == k2)) = true) := by
  have hkey2 : e.key = k2 := by simpa using List.find?_some hfind
  have hmem : e ∈ c.cache := List.mem_of_find?_eq_some hfind
  have h1 : (c.get k2 t).2.cache = c.cache.filter (fun x => !(x.key == k2)) ++ [e] := by
    unfold APICache.get
    rw [hfind]
    simp [hfresh]
  have hflen : (c.cache.filter (fun x => !(x.key == k2))).length + 1 = c.cache.length :=
    filter_key_length c.cache k2 hnd e hmem hkey2
  have hc1len : (c.get k2 t).2.cache.length = c.cache.length := by
    rw [h1]
    simp only [List.length_append, List.length_cons, List.length_nil]
    omega
  have hc1max : (c.get k2 t).2.max_size = c.max_size := get_max_size c k2 t
  have hnotin : (c.get k2 t).2.cache.any (fun x => x.key == k) = false := by
    rw [List.any_eq_false]
    intro x hx
    simp [hnew x (get_mem_subset c k2 t x hx)]
  have h2 : ((c.get k2 t).2.set k v t2).cache = (c.get k2 t).2.cache.drop 1 ++ [⟨k, v, t2⟩] := by
    unfold APICache.set
    rw [hnotin]
    simp only [Bool.false_eq_true, if_false, hc1max, hc1len]
    rw [if_pos (le_trans hcap (le_of_eq rfl))]
  refine ⟨h1, h2, ?_⟩
  rw [h2, h1]
  have hAlen : 1 ≤ (c.cache.filter (fun x => !(x.key == k2))).length := by omega
  rw [List.drop_append_of_le_length hAlen]
  rw [List.any_eq_true]
  exact ⟨e, by simp, by simp [hkey2]⟩

def c6CacheW : APICache Nat := ⟨[⟨"a", some 1, 0⟩, ⟨"b", some 2, 0⟩], 2, 3600⟩

/-- Witness for C6: a two-entry cache at capacity 2; reading key `a` moves it
to the back, so inserting the new key `c` evicts `b` and keeps `a`. -/
theorem c6_lru_eviction_protects_witness :
    ((c6CacheW.get "a" 5).2.cache =
      c6CacheW.cache.filter (fun x => !(x.key == "a")) ++ [⟨"a", some 1, 0⟩]) ∧
    (((c6CacheW.get "a" 5).2.set "c" (some 9) 6).cache =
      (c6CacheW.get "a" 5).2.cache.drop 1 ++ [⟨"c", some 9, 6⟩]) ∧
    ((((c6CacheW.get "a" 5).2.set "c" (some 9) 6).cache.any (fun x => x.key == "a")) = true) :=
  c6_lru_eviction_protects c6CacheW "c" "a" (some 9) ⟨"a", some 1, 0⟩ 5 6
    (by decide) (by decide) (by decide) (by decide) (by decide) (by decide)

/-! ## Claim C1 (corrected) -/

def c1CacheW : APICache Nat := ⟨[], 2000, 3600⟩

def c1NetW : Nat → NetResponse Nat := fun _ => .http 404 none

/-- C1 as stated is false: after a first call whose upstream answered 404,
the negative outcome is indeed stored under the request key, but an
identical request 10 seconds later (well within the 3600 s TTL) still
issues a network attempt (`networkCalls = 1`, the claim requires 0),
because `api_request_with_cache` cannot distinguish the cached `None` from
a cache miss (`if cached_data is not None`, line 569). -/
theorem c1_counterexample :
    ((apiRequestWithCache c1CacheW "k" c1NetW 2 0).cache.cache.any
      (fun e => e.key == "k") = true) ∧
    (apiRequestWithCache (apiRequestWithCache c1CacheW "k" c1NetW 2 0).cache
      "k" c1NetW 2 10).networkCalls = 1 := by
  decide

/-- C1 amended: a definitive negative (404, 204 or empty body) on the first
attempt is cached under the request key as a `None` entry, and the call
returns absent; but an identical request within the TTL treats the cached
`None` as a miss and performs at least one further network attempt — only
non-`None` payloads are served from the cache without touching the
network. -/
theorem c1_negative_cached_but_refetched {V : Type} (c : APICache V) (key : String)
    (net net2 : Nat → NetResponse V) (retries retries2 now now2 : Nat)
    (hmiss : (c.get key now).1 = none)
    (hneg : isDefinitiveNegative (net 0) = true)
    (_httl : now2 - now < c.ttl) :
    (apiRequestWithCache c key net retries now).value = none ∧
    ((apiRequestWithCache c key net retries now).cache.cache.find?
        (fun e => e.key == key) = some ⟨key, none, now⟩) ∧
    1 ≤ (apiRequestWithCache (apiRequestWithCache c key net retries now).cache
        key net2 retries2 now2).networkCalls := by
  have hr1 : apiRequestWithCache c key net retries now =
      ⟨none, ((c.get key now).2).set key none now, [], 1⟩ := by
    unfold apiRequestWithCache
    rw [hmiss]
    rcases hn : net 0 with ⟨code, body⟩ | _ | _
    · simp only [isDefinitiveNegative, hn, Bool.or_eq_true, Bool.and_eq_true, beq_iff_eq,
        decide_eq_true_eq, Option.isNone_iff_eq_none] at hneg
      simp only [runAttempts, hn]
      by_cases h24 : code = 204 ∨ code = 404
      · rw [if_pos h24]
      · rw [if_neg h24]
        rcases hneg with hneg | hneg
        · exact absurd hneg h24
        · obtain ⟨hlt, hbody⟩ := hneg
          rw [if_neg (by omega)]
          subst hbody
          rfl
    · simp [isDefinitiveNegative, hn] at hneg
    · simp [isDefinitiveNegative, hn] at hneg
  rw [hr1]
  refine ⟨rfl, set_find_self _ _ _ _, ?_⟩
  unfold apiRequestWithCache
  have hg : ((((c.get key now).2).set key none now).get key now2).1 = none :=
    get_cached_none _ key now now2 (set_find_self _ _ _ _)
  rw [hg]
  have := runAttempts_calls_pos key net2 retries2 now2 retries2 0
    ((((c.get key now).2).set key none now).get key now2).2 [] 0
  simpa using this

/-- Witness for the amended C1 at a concrete empty cache and a 404-answering
endpoint. -/
theorem c1_negative_cached_but_refetched_witness :
    (apiRequestWithCache c1CacheW "k" c1NetW 2 0).value = none ∧
    ((apiRequestWithCache c1CacheW "k" c1NetW 2 0).cache.cache.find?
        (fun e => e.key == "k") = some ⟨"k", none, 0⟩) ∧
    1 ≤ (apiRequestWithCache (apiRequestWithCache c1CacheW "k" c1NetW 2 0).cache
        "k" c1NetW 2 10).networkCalls :=
  c1_negative_cached_but_refetched c1CacheW "k" c1NetW c1NetW 2 2 0 10
    (by decide) (by decide) (by decide)

/-! ## Claim C5 -/

/-- C5: a request that misses the cache, receives HTTP 429 on the first
attempt and HTTP 200 with a JSON body on the second, sleeps exactly
2 ^ (attempt + 1) = 2 seconds after the 429, returns the parsed payload,
and leaves the success payload (not the failure) cached under the request
key: a later `get` within the TTL returns it. -/
theorem c5_429_backoff_then_success {V : Type} (c : APICache V) (key : String)
    (net : Nat → NetResponse V) (v : V) (b : Option V) (retries now t2 : Nat)
    (hmiss : (c.get key now).1 = none)
    (hr : 1 ≤ retries)
    (h0 : net 0 = .http 429 b)
    (h1 : net 1 = .http 200 (some v))
    (ht2 : t2 - now < c.ttl) :
    (apiRequestWithCache c key net retries now).value = some v ∧
    (apiRequestWithCache c key net retries now).sleeps = [(2 : ℚ)] ∧
    (((apiRequestWithCache c key net retries now).cache).get key t2).1 = some v := by
  obtain ⟨r, rfl⟩ : ∃ r, retries = r + 1 := ⟨retries - 1, by omega⟩
  have hr1 : apiRequestWithCache c key net (r + 1) now =
      ⟨some v, ((c.get key now).2).set key (some v) now, [(2 : ℚ)], 2⟩ := by
    unfold apiRequestWithCache
    rw [hmiss]
    simp only [runAttempts, h0, h1]
    norm_num
  rw [hr1]
  refine ⟨rfl, rfl, ?_⟩
  have httl : t2 - now < ((c.get key now).2).ttl := by
    rw [get_ttl]
    exact ht2
  exact get_fresh_after_set _ key (some v) now t2 httl

def c5CacheW : APICache Nat := ⟨[], 2000, 3600⟩

def c5NetW : Nat → NetResponse Nat := fun n => if n = 0 then .http 429 none else .http 200 (some 42)

/-- Witness for C5 at a concrete endpoint answering 429 then 200. -/
theorem c5_429_backoff_then_success_witness :
    (apiRequestWithCache c5CacheW "k" c5NetW 2 0).value = some 42 ∧
    (apiRequestWithCache c5CacheW "k" c5NetW 2 0).sleeps = [(2 : ℚ)] ∧
    (((apiRequestWithCache c5CacheW "k" c5NetW 2 0).cache).get "k" 100).1 = some 42 :=
  c5_429_backoff_then_success c5CacheW "k" c5NetW 42 none 2 0 100
    (by decide) (by decide) (by decide) (by decide) (by decide)

/-! ## TextHeuristics: character classes and small string helpers

Python `\s`, `\w`, `\d`, `str.strip()`, `str.lower()` and the `in`
substring test, restricted to the ASCII texts the heuristics receive. -/

def isPySpace (c : Char) : Bool :=
  c == ' ' || c == '\t' || c == '\n' || c == '\r' || c == '\x0b' || c == '\x0c'

def isWordChar (c : Char) : Bool :=
  ('a' ≤ c && c ≤ 'z') || ('A' ≤ c && c ≤ 'Z') || ('0' ≤ c && c ≤ '9') || c == '_'

def isGapChar (c : Char) : Bool :=
  isPySpace c || isWordChar c

def isUpperAZ (c : Char) : Bool := 'A' ≤ c && c ≤ 'Z'

def isLowerAZ (c : Char) : Bool := 'a' ≤ c && c ≤ 'z'

def stripChars (s : List Char) : List Char :=
  ((s.dropWhile isPySpace).reverse.dropWhile isPySpace).reverse

def stripS (s : String) : String := String.mk (stripChars s.data)

def lstartsWith : List Char → List Char → Bool
  | [], _ => true
  | _ :: _, [] => false
  | n :: ns, h :: hs => n == h && lstartsWith ns hs

/-- Python substring test `needle in hay`. -/
def linfix (needle : List Char) : List Char → Bool
  | [] => lstartsWith needle []
  | h :: hs => lstartsWith needle (h :: hs) || linfix needle hs

def substr (needle hay : String) : Bool := linfix needle.data hay.data

/-- Python `str.isdigit()` on ASCII text: non-empty and all digits. -/
def pyIsDigit (s : List Char) : Bool := !s.isEmpty && s.all Char.isDigit

def parseNatDigits (s : List Char) : Nat :=
  s.foldl (fun a c => 10 * a + (c.toNat - 48)) 0

/-- Case-insensitive match of a (lower-case) literal at the head of the
text, returning the rest on success. -/
def matchLitCI : List Char → List Char → Option (List Char)
  | [], s => some s
  | _ :: _, [] => none
  | c :: cs, h :: hs => if h.toLower == c then matchLitCI cs hs else none

def skipSpacesL (s : List Char) : List Char := s.dropWhile isPySpace

/-- Maximal run of decimal digits at the head of the text, plus the rest. -/
def digitSplit (s : List Char) : List Char × List Char := s.span Char.isDigit

/-- The regex `^[A-Z][a-z]+\s+[a-z]+$` (SCIENTIFIC_NAME_PATTERN, line 133):
one upper-case letter, one or more lower-case letters, whitespace, one or
more lower-case letters, end of string. -/
def matchesSciPattern (s : List Char) : Bool :=
  match s with
  | [] => false
  | c :: rest =>
    let p1 := rest.span isLowerAZ
    let p2 := p1.2.span isPySpace
    let p3 := p2.2.span isLowerAZ
    isUpperAZ c && !p1.1.isEmpty && !p2.1.isEmpty && !p3.1.isEmpty && p3.2.isEmpty

/-- `is_scientific_name` (lines 726-728): full match of the binomial shape
against the stripped query. -/
def isScientificName (q : String) : Bool := matchesSciPattern (stripChars q.data)

/-! ## TextHeuristics: DEPTH_PATTERNS (lines 140-146)

Each compiled regex becomes a matcher returning the captured digit groups
of the leftmost match.  A run of `\d{1,5}` directly followed by a
non-digit context letter (`-`, `to`, `m`) matches exactly when the maximal
digit run at that point has length 1..5, because shorter greedy choices
leave a digit where the next literal is required. -/

/-- Tail `(\d{1,5})\s*m` of pattern 1 (`depth[\s\w]{0,30}?(\d{1,5})\s*m`). -/
def p1Tail (s : List Char) : Option (List Char) :=
  let d := digitSplit s
  if 1 ≤ d.1.length ∧ d.1.length ≤ 5 then
    match skipSpacesL d.2 with
    | c :: _ => if c.toLower == 'm' then some d.1 else none
    | [] => none
  else none

/-- The lazy gap `[\s\w]{0,30}?` of pattern 1: try the tail with no gap
first, then extend the gap one admissible character at a time. -/
def p1Gap : Nat → List Char → Option (List Char)
  | fuel, s =>
    match p1Tail s with
    | some r => some r
    | none =>
      match fuel, s with
      | fuel2 + 1, c :: cs => if isGapChar c then p1Gap fuel2 cs else none
      | _, _ => none

/-- Pattern 1 `depth[\s\w]{0,30}?(\d{1,5})\s*m` (IGNORECASE), leftmost
match over all start positions. -/
def p1Scan : List Char → Option (List Char)
  | [] => none
  | c :: cs =>
    match (matchLitCI ['d', 'e', 'p', 't', 'h'] (c :: cs)).bind (p1Gap 30) with
    | some r => some r
    | none => p1Scan cs

/-- The greedy gap `[\s\w]{0,20}` of pattern 2 followed by the literal
`depth`: reachable within at most 20 admissible characters. -/
def p2Gap : Nat → List Char → Bool
  | fuel, s =>
    match matchLitCI ['d', 'e', 'p', 't', 'h'] s with
    | some _ => true
    | none =>
      match fuel, s with
      | fuel2 + 1, c :: cs => isGapChar c && p2Gap fuel2 cs
      | _, _ => false

/-- Pattern 2 `(\d{1,5})\s*m[\s\w]{0,20}depth` at one position. -/
def p2At (s : List Char) : Option (List Char) :=
  let d := digitSplit s
  if 1 ≤ d.1.length ∧ d.1.length ≤ 5 then
    match skipSpacesL d.2 with
    | c :: cs => if c.toLower == 'm' && p2Gap 20 cs then some d.1 else none
    | [] => none
  else none

def p2Scan : List Char → Option (List Char)
  | [] => none
  | c :: cs =>
    match p2At (c :: cs) with
    | some r => some r
    | none => p2Scan cs

/-- Pattern 3 `(\d{1,5})\s*-\s*(\d{1,5})\s*m` at one position. -/
def p3At (s : List Char) : Option (List Char × List Char) :=
  let d1 := digitSplit s
  if 1 ≤ d1.1.length ∧ d1.1.length ≤ 5 then
    match skipSpacesL d1.2 with
    | '-' :: r2 =>
      let d2 := digitSplit (skipSpacesL r2)
      if 1 ≤ d2.1.length ∧ d2.1.length ≤ 5 then
        match skipSpacesL d2.2 with
        | c :: _ => if c.toLower == 'm' then some (d1.1, d2.1) else none
        | [] => none
      else none
    | _ => none
  else none

def p3Scan : List Char → Option (List Char × List Char)
  | [] => none
  | c :: cs =>
    match p3At (c :: cs) with
    | some r => some r
    | none => p3Scan cs

/-- Pattern 4 `(\d{1,5})\s*meter` at one position. -/
def p4At (s : List Char) : Option (List Char) :=
  let d := digitSplit s
  if 1 ≤ d.1.length ∧ d.1.length ≤ 5 then
    match matchLitCI ['m', 'e', 't', 'e', 'r'] (skipSpacesL d.2) with
    | some _ => some d.1
    | none => none
  else none

def p4Scan : List Char → Option (List Char)
  | [] => none
  | c :: cs =>
    match p4At (c :: cs) with
    | some r => some r
    | none => p4Scan cs

/-- Pattern 5 `(\d{1,5})\s*to\s*(\d{1,5})\s*m` at one position. -/
def p5At (s : List Char) : Option (List Char × List Char) :=
  let d1 := digitSplit s
  if 1 ≤ d1.1.length ∧ d1.1.length ≤ 5 then
    match matchLitCI ['t', 'o'] (skipSpacesL d1.2) with
    | some r2 =>
      let d2 := digitSplit (skipSpacesL r2)
      if 1 ≤ d2.1.length ∧ d2.1.length ≤ 5 then
        match skipSpacesL d2.2 with
        | c :: _ => if c.toLower == 'm' then some (d1.1, d2.1) else none
        | [] => none
      else none
    | none => none
  else none

def p5Scan : List Char → Option (List Char × List Char)
  | [] => none
  | c :: cs =>
    match p5At (c :: cs) with
    | some r => some r
    | none => p5Scan cs

/-! ## OBIS data model and depth extraction -/

structure Occurrence where
  depth : Option ℚ
  decimalLatitude : Option ℚ
  decimalLongitude : Option ℚ
  locality : Option String
  waterBody : Option String
  country : Option String
  year : Option Int
deriving DecidableEq, Repr

structure ObisOccurrences where
  total : Nat
  results : List Occurrence
deriving DecidableEq, Repr

/-- The value produced by `get_obis_data_fast` (lines 1346-1369). -/
structure ObisData where
  occurrences : ObisOccurrences
  scientific_name : String
deriving DecidableEq, Repr

structure DepthInfo where
  min_depth : ℚ
  max_depth : ℚ
  avg_depth : ℚ
  record_count : Nat
  source : String
deriving DecidableEq, Repr

/-- Python `min` over a non-empty list (the `[]` case is unreachable behind
a non-emptiness guard). -/
def pyMin : List ℚ → ℚ
  | [] => 0
  | x :: xs => xs.foldl min x

def pyMax : List ℚ → ℚ
  | [] => 0
  | x :: xs => xs.foldl max x

def parseQ (g : List Char) : ℚ := (parseNatDigits g : ℚ)

/-- The text half of `extract_depth_from_obis_fast` (lines 1442-1466): try
the five DEPTH_PATTERNS in their fixed priority order on the WoRMS
`environment` text and build the summary from the first match; a
single-group pattern gives min = max = avg, a two-group pattern gives
min/max/avg of the two captured numbers; `record_count` is 1 and the
source is tagged WoRMS. -/
def depthFromText (env : List Char) : Option DepthInfo :=
  match p1Scan env with
  | some g => some ⟨parseQ g, parseQ g, parseQ g, 1, "WoRMS"⟩
  | none =>
    match p2Scan env with
    | some g => some ⟨parseQ g, parseQ g, parseQ g, 1, "WoRMS"⟩
    | none =>
      match p3Scan env with
      | some gg =>
        some ⟨pyMin [parseQ gg.1, parseQ gg.2], pyMax [parseQ gg.1, parseQ gg.2],
          ([parseQ gg.1, parseQ gg.2].sum) / (([parseQ gg.1, parseQ gg.2].length : ℚ)),
          1, "WoRMS"⟩
      | none =>
        match p4Scan env with
        | some g => some ⟨parseQ g, parseQ g, parseQ g, 1, "WoRMS"⟩
        | none =>
          match p5Scan env with
          | some gg =>
            some ⟨pyMin [parseQ gg.1, parseQ gg.2], pyMax [parseQ gg.1, parseQ gg.2],
              ([parseQ gg.1, parseQ gg.2].sum) / (([parseQ gg.1, parseQ gg.2].length : ℚ)),
              1, "WoRMS"⟩
          | none => none

/-- The WoRMS record fields the pipeline reads (`Option` collapses a
missing key and a `None`/empty value where the source treats them alike). -/
structure Vernacular where
  vernacular : String
  language : String
deriving DecidableEq, Repr

structure WormsRecord where
  scientificname : Option String
  valid_name : Option String
  valid_vernacular : Option String
  vernaculars : List Vernacular
  isMarine : Bool
  isBrackish : Bool
  isFreshwater : Bool
  isTerrestrial : Bool
  environment : String
  distribution : Option String
deriving DecidableEq, Repr

/-- `extract_depth_from_obis_fast` (lines 1414-1468): the depths of the
first 20 occurrence records (those whose `depth` field is present and
numeric) give min/max/mean and the record count with source OBIS v3;
with no usable occurrence depths the environment text is mined with the
DEPTH_PATTERNS. -/
def obisDepths (obis : Option ObisData) : List ℚ :=
  match obis with
  | some o => (o.occurrences.results.take 20).filterMap (fun occ => occ.depth)
  | none => []

def extract_depth_from_obis_fast (obis : Option ObisData) (record : WormsRecord) :
    Option DepthInfo :=
  if (obisDepths obis).isEmpty then
    depthFromText record.environment.data
  else
    some ⟨pyMin (obisDepths obis), pyMax (obisDepths obis),
      (obisDepths obis).sum / (((obisDepths obis).length : ℚ)),
      (obisDepths obis).length, "OBIS v3"⟩

/-! ## Ocean-basin classification (lines 1512-1545) -/

/-- The `if/elif` longitude-threshold chain applied to one coordinate pair,
in exactly the source order; `none` when no branch fires (e.g. longitude
exactly 100 or beyond 180). -/
def classifyBasin (lat lon : ℚ) : Option String :=
  if lon < -30 then
    (if lat > 0 then some "North Atlantic" else some "South Atlantic")
  else if -30 ≤ lon ∧ lon ≤ 30 then some "Tropical Atlantic"
  else if lon > 100 ∧ lon < 180 then
    (if lat > 0 then some "North Pacific" else some "South Pacific")
  else if lon < -100 then some "Eastern Pacific"
  else if 30 < lon ∧ lon < 100 then some "Indian Ocean"
  else none

def dedupAppend (l : List String) (s : String) : List String :=
  if s ∈ l then l else l ++ [s]

/-- `extract_ocean_basins_fast`: classify the first 20 coordinate-bearing
occurrences, collect the distinct basins (the Python `set` is modelled
with first-seen insertion order), cap at 3, and fall back to the
placeholder when nothing was classified. -/
def extract_ocean_basins_fast (obis : Option ObisData) : List String :=
  let basins : List String :=
    match obis with
    | none => []
    | some o =>
      (o.occurrences.results.take 20).foldl
        (fun acc occ =>
          match occ.decimalLatitude, occ.decimalLongitude with
          | some la, some lo =>
            match classifyBasin la lo with
            | some b => dedupAppend acc b
            | none => acc
          | _, _ => acc) []
  if basins.isEmpty then ["Multiple ocean basins"] else basins.take 3

/-! ### Minimum, maximum and mean of a non-empty rational list -/

theorem foldl_min_le_init (xs : List ℚ) (a : ℚ) : xs.foldl min a ≤ a := by
  induction xs generalizing a with
  | nil => simp
  | cons x xs ih => exact le_trans (ih (min a x)) (min_le_left a x)

theorem foldl_min_le_mem (xs : List ℚ) (a b : ℚ) (hb : b ∈ xs) : xs.foldl min a ≤ b := by
  induction xs generalizing a with
  | nil => cases hb
  | cons x xs ih =>
    rcases List.mem_cons.mp hb with rfl | h
    · exact le_trans (foldl_min_le_init xs (min a b)) (min_le_right a b)
    · exact ih (min a x) h

theorem pyMin_le_mem (l : List ℚ) (b : ℚ) (hb : b ∈ l) : pyMin l ≤ b := by
  cases l with
  | nil => cases hb
  | cons x xs =>
    rcases List.mem_cons.mp hb with rfl | h
    · exact foldl_min_le_init xs b
    · exact foldl_min_le_mem xs x b h

theorem init_le_foldl_max (xs : List ℚ) (a : ℚ) : a ≤ xs.foldl max a := by
  induction xs generalizing a with
  | nil => simp
  | cons x xs ih => exact le_trans (le_max_left a x) (ih (max a x))

theorem mem_le_foldl_max (xs : List ℚ) (a b : ℚ) (hb : b ∈ xs) : b ≤ xs.foldl max a := by
  induction xs generalizing a with
  | nil => cases hb
  | cons x xs ih =>
    rcases List.mem_cons.mp hb with rfl | h
    · exact le_trans (le_max_right a b) (init_le_foldl_max xs (max a b))
    · exact ih (max a x) h

theorem mem_le_pyMax (l : List ℚ) (b : ℚ) (hb : b ∈ l) : b ≤ pyMax l := by
  cases l with
  | nil => cases hb
  | cons x xs =>
    rcases List.mem_cons.mp hb with rfl | h
    · exact init_le_foldl_max xs b
    · exact mem_le_foldl_max xs x b h

theorem mul_length_le_sum (l : List ℚ) (m : ℚ) (h : ∀ b ∈ l, m ≤ b) :
    m * (l.length : ℚ) ≤ l.sum := by
  induction l with
  | nil => simp
  | cons x xs ih =>
    have hx := h x (List.mem_cons_self x xs)
    have hxs := ih (fun b hb => h b (List.mem_cons_of_mem x hb))
    simp only [List.sum_cons, List.length_cons, Nat.cast_succ]
    nlinarith [hxs, hx]

theorem sum_le_mul_length (l : List ℚ) (M : ℚ) (h : ∀ b ∈ l, b ≤ M) :
    l.sum ≤ M * (l.length : ℚ) := by
  induction l with
  | nil => simp
  | cons x xs ih =>
    have hx := h x (List.mem_cons_self x xs)
    have hxs := ih (fun b hb => h b (List.mem_cons_of_mem x hb))
    simp only [List.sum_cons, List.length_cons, Nat.cast_succ]
    nlinarith [hxs, hx]

theorem avg_between (l : List ℚ) (h : l ≠ []) :
    pyMin l ≤ l.sum / (l.length : ℚ) ∧ l.sum / (l.length : ℚ) ≤ pyMax l := by
  have hlen : 0 < (l.length : ℚ) := by
    have := List.length_pos.mpr h
    exact_mod_cast this
  constructor
  · rw [le_div_iff₀ hlen]
    exact mul_length_le_sum l (pyMin l) (fun b hb => pyMin_le_mem l b hb)
  · rw [div_le_iff₀ hlen]
    exact sum_le_mul_length l (pyMax l) (fun b hb => mem_le_pyMax l b hb)

theorem depthFromText_invariant (env : List Char) (d : DepthInfo)
    (h : depthFromText env = some d) :
    d.min_depth ≤ d.avg_depth ∧ d.avg_depth ≤ d.max_depth ∧ 1 ≤ d.record_count := by
  unfold depthFromText at h
  rcases h1 : p1Scan env with _ | g <;> rw [h1] at h
  case some =>
    obtain rfl := Option.some_inj.mp h
    exact ⟨le_refl _, le_refl _, le_refl _⟩
  rcases h2 : p2Scan env with _ | g <;> rw [h2] at h
  case some =>
    obtain rfl := Option.some_inj.mp h
    exact ⟨le_refl _, le_refl _, le_refl _⟩
  rcases h3 : p3Scan env with _ | gg <;> rw [h3] at h
  case some =>
    obtain rfl := Option.some_inj.mp h
    have hav := avg_between [parseQ gg.1, parseQ gg.2] (by simp)
    exact ⟨hav.1, hav.2, le_refl _⟩
  rcases h4 : p4Scan env with _ | g <;> rw [h4] at h
  case some =>
    obtain rfl := Option.some_inj.mp h
    exact ⟨le_refl _, le_refl _, le_refl _⟩
  rcases h5 : p5Scan env with _ | gg <;> rw [h5] at h
  case some =>
    obtain rfl := Option.some_inj.mp h
    have hav := avg_between [parseQ gg.1, parseQ gg.2] (by simp)
    exact ⟨hav.1, hav.2, le_refl _⟩
  cases h

/-! ## Claim C10 -/

/-- C10: every depth summary the pipeline produces — whether from OBIS
occurrence depths or from mined text — satisfies
min_depth ≤ avg_depth ≤ max_depth and reports at least one record. -/
theorem c10_depth_summary_invariant (obis : Option ObisData) (record : WormsRecord)
    (d : DepthInfo) (h : extract_depth_from_obis_fast obis record = some d) :
    d.min_depth ≤ d.avg_depth ∧ d.avg_depth ≤ d.max_depth ∧ 1 ≤ d.record_count := by
  unfold extract_depth_from_obis_fast at h
  split at h
  · exact depthFromText_invariant record.environment.data d h
  · obtain rfl := Option.some_inj.mp h
    rename_i hne
    have hnil : obisDepths obis ≠ [] := by
      intro hcon
      exact hne (by rw [hcon]; rfl)
    have hav := avg_between (obisDepths obis) hnil
    exact ⟨hav.1, hav.2, List.length_pos.mpr hnil⟩

def c10ObisW : ObisData :=
  ⟨⟨1, [⟨some 200, none, none, none, none, none, none⟩]⟩, "s"⟩

def c10RecW : WormsRecord := ⟨none, none, none, [], false, false, false, false, "", none⟩

/-- Witness for C10 on a concrete occurrence depth of 200 m. -/
theorem c10_depth_summary_invariant_witness :
    (⟨200, 200, 200, 1, "OBIS v3"⟩ : DepthInfo).min_depth ≤
      (⟨200, 200, 200, 1, "OBIS v3"⟩ : DepthInfo).avg_depth ∧
    (⟨200, 200, 200, 1, "OBIS v3"⟩ : DepthInfo).avg_depth ≤
      (⟨200, 200, 200, 1, "OBIS v3"⟩ : DepthInfo).max_depth ∧
    1 ≤ (⟨200, 200, 200, 1, "OBIS v3"⟩ : DepthInfo).record_count :=
  c10_depth_summary_invariant (some c10ObisW) c10RecW ⟨200, 200, 200, 1, "OBIS v3"⟩
    (by
      have h : obisDepths (some c10ObisW) = [200] := by decide
      simp [extract_depth_from_obis_fast, h, pyMin, pyMax])

/-! ## Claim C8 -/

def c8RecA : WormsRecord :=
  ⟨none, none, none, [], false, false, false, false, "found at depths of 200-600 m", none⟩

def c8RecB : WormsRecord :=
  ⟨none, none, none, [], false, false, false, false, "occurs around 1500 meter", none⟩

/-- C8: with no OBIS depths, the text "found at depths of 200-600 m" yields
min 200 and max 600 via pattern 3, the first pattern in the priority order
that matches (patterns 1 and 2 fail on it); "occurs around 1500 meter"
yields the single value 1500 (min = max = avg = 1500) via pattern 4,
patterns 1-3 failing. -/
theorem c8_depth_text_extraction :
    p1Scan c8RecA.environment.data = none ∧
    p2Scan c8RecA.environment.data = none ∧
    extract_depth_from_obis_fast none c8RecA = some ⟨200, 600, 400, 1, "WoRMS"⟩ ∧
    p1Scan c8RecB.environment.data = none ∧
    p2Scan c8RecB.environment.data = none ∧
    p3Scan c8RecB.environment.data = none ∧
    extract_depth_from_obis_fast none c8RecB = some ⟨1500, 1500, 1500, 1, "WoRMS"⟩ := by
  have hA1 : p1Scan c8RecA.environment.data = none := by decide
  have hA2 : p2Scan c8RecA.environment.data = none := by decide
  have hA3 : p3Scan c8RecA.environment.data =
      some (['2', '0', '0'], ['6', '0', '0']) := by decide
  have hB1 : p1Scan c8RecB.environment.data = none := by decide
  have hB2 : p2Scan c8RecB.environment.data = none := by decide
  have hB3 : p3Scan c8RecB.environment.data = none := by decide
  have hB4 : p4Scan c8RecB.environment.data = some ['1', '5', '0', '0'] := by decide
  have e200 : parseQ ['2', '0', '0'] = 200 := by
    have h : parseNatDigits ['2', '0', '0'] = 200 := by decide
    simp [parseQ, h]
  have e600 : parseQ ['6', '0', '0'] = 600 := by
    have h : parseNatDigits ['6', '0', '0'] = 600 := by decide
    simp [parseQ, h]
  have e1500 : parseQ ['1', '5', '0', '0'] = 1500 := by
    have h : parseNatDigits ['1', '5', '0', '0'] = 1500 := by decide
    simp [parseQ, h]
  refine ⟨hA1, hA2, ?_, hB1, hB2, hB3, ?_⟩
  · show depthFromText c8RecA.environment.data = _
    unfold depthFromText
    rw [hA1, hA2, hA3]
    dsimp only
    rw [e200, e600]
    have hmin : pyMin [(200 : ℚ), 600] = 200 := by
      show min 200 600 = 200
      exact min_eq_left (by norm_num)
    have hmax : pyMax [(200 : ℚ), 600] = 600 := by
      show max 200 600 = 600
      exact max_eq_right (by norm_num)
    have havg : ([(200 : ℚ), 600].sum) / ((([(200 : ℚ), 600].length) : ℚ)) = 400 := by
      norm_num [List.sum_cons, List.sum_nil]
    rw [hmin, hmax, havg]
  · show depthFromText c8RecB.environment.data = _
    unfold depthFromText
    rw [hB1, hB2, hB3, hB4]
    dsimp only
    rw [e1500]

/-! ## Claim C4 (code bug) -/

def c4ObisW : ObisData :=
  ⟨⟨1, [⟨none, some 10, some (-120), none, none, none, none⟩]⟩, "x"⟩

/-- C4 names a code bug: the source has an `elif lon < -100: "Eastern
Pacific"` branch (line 1540), but it is dead code because the earlier
`if lon < -30` branch (line 1528) captures every such longitude.  At the
failing input (latitude 10, longitude −120) the code classifies "North
Atlantic", and over all coordinates the classifier only ever produces the
basins listed here — never "Eastern Pacific". -/
theorem c4_eastern_pacific_dead_branch :
    classifyBasin 10 (-120) = some "North Atlantic" ∧
    extract_ocean_basins_fast (some c4ObisW) = ["North Atlantic"] ∧
    (∀ lat lon : ℚ, classifyBasin lat lon ∈
      ([none, some "North Atlantic", some "South Atlantic", some "Tropical Atlantic",
        some "North Pacific", some "South Pacific", some "Indian Ocean"] :
        List (Option String))) := by
  refine ⟨by decide, by decide, ?_⟩
  intro lat lon
  unfold classifyBasin
  split_ifs <;> simp_all <;> linarith

/-! ## NameResolver: search_worms_species_fast (lines 992-1031)

The four network-backed stages are oracle parameters: `getCompleteById`
models `get_complete_species_data` on a numeric id, `robust` models
`search_worms_species_robust` (exact scientific-name match, then fuzzy
contains-match, stages 2-3), `byCommonName` models
`search_by_common_name_fast` (stage 4, which internally already falls back
to the encyclopedic-mediated stage 5), and `fuzzyCommon` models
`fuzzy_search_common_name_fast` (stage 6, encyclopedic title retry). -/

structure SearchOracles (S : Type) where
  getCompleteById : Nat → Option S
  robust : String → List S
  byCommonName : String → List S
  fuzzyCommon : String → List S

/-- `search_worms_species_fast`: strip the query; reject queries shorter
than 2 characters; a purely numeric query is treated as a taxon id
(terminal either way); a query matching the binomial shape returns the
robust-search result directly (terminal even when empty, lines 1011-1013);
any other query falls through robust search, then common-name search, then
the encyclopedic fuzzy search, stopping at the first non-empty result, and
the final result is truncated to 10 entries. -/
def search_worms_species_fast {S : Type} (o : SearchOracles S) (query : String) : List S :=
  let clean := stripS query
  if clean.length < 2 then []
  else if pyIsDigit clean.data then
    match o.getCompleteById (parseNatDigits clean.data) with
    | some d => [d]
    | none => []
  else if isScientificName clean then
    o.robust clean
  else
    let r1 := o.robust clean
    let r2 := if r1.isEmpty then o.byCommonName clean else r1
    let r3 := if r2.isEmpty then o.fuzzyCommon clean else r2
    r3.take 10

/-! ## Claim C2 (corrected) -/

def c2OraclesW : SearchOracles Nat :=
  ⟨fun _ => none, fun _ => [], fun _ => [7], fun _ => [8]⟩

/-- C2 as stated is false: for the binomial-shaped query "Orcinus orca"
whose lexical stages find nothing, the code returns the empty robust-search
result directly (line 1013) and never consults the vernacular or
encyclopedic stages — here both would have produced results (the vernacular
oracle returns [7]), so by the claim the resolution should have been
non-empty. -/
theorem c2_counterexample :
    search_worms_species_fast c2OraclesW "Orcinus orca" = [] ∧
    c2OraclesW.byCommonName "Orcinus orca" = [7] ∧
    c2OraclesW.fuzzyCommon "Orcinus orca" = [8] := by
  decide

/-- C2 amended: the stages run strictly in order and stop at the first
non-empty result, with one exception the claim missed: a query matching
the two-word binomial shape terminates after the exact/fuzzy
scientific-name stage even when that stage is empty, never reaching the
vernacular or encyclopedic stages.  Numeric queries are terminal at stage
1; only non-numeric, non-binomial queries fall through
robust → common-name → encyclopedic-fuzzy, and their result is capped at
10. -/
theorem c2_fallback_order_amended {S : Type} (o : SearchOracles S) (q : String)
    (hlen : 2 ≤ (stripS q).length) :
    (pyIsDigit (stripS q).data = true →
      search_worms_species_fast o q =
        (match o.getCompleteById (parseNatDigits (stripS q).data) with
         | some d => [d]
         | none => [])) ∧
    (pyIsDigit (stripS q).data = false → isScientificName (stripS q) = true →
      search_worms_species_fast o q = o.robust (stripS q)) ∧
    (pyIsDigit (stripS q).data = false → isScientificName (stripS q) = false →
      search_worms_species_fast o q =
        (if (o.robust (stripS q)).isEmpty then
          (if (o.byCommonName (stripS q)).isEmpty then o.fuzzyCommon (stripS q)
           else o.byCommonName (stripS q))
         else o.robust (stripS q)).take 10) := by
  have hnl : ¬ ((stripS q).length < 2) := by omega
  refine ⟨?_, ?_, ?_⟩
  · intro hdig
    unfold search_worms_species_fast
    simp only [hnl, if_false, hdig, if_true]
  · intro hdig hsci
    unfold search_worms_species_fast
    simp only [hnl, if_false, hdig, Bool.false_eq_true, hsci, if_true]
  · intro hdig hsci
    unfold search_worms_species_fast
    simp only [hnl, if_false, hdig, hsci, Bool.false_eq_true]
    by_cases h1 : (o.robust (stripS q)).isEmpty <;>
      by_cases h2 : (o.byCommonName (stripS q)).isEmpty <;>
        simp [h1, h2]

def c2OraclesW2 : SearchOracles Nat :=
  ⟨fun _ => none, fun _ => [], fun _ => [], fun _ => [8]⟩

/-- Witness for the amended C2: the non-binomial query "orca" falls through
the empty robust and common-name stages to the encyclopedic stage. -/
theorem c2_fallback_order_amended_witness :
    (pyIsDigit (stripS "orca").data = true →
      search_worms_species_fast c2OraclesW2 "orca" =
        (match c2OraclesW2.getCompleteById (parseNatDigits (stripS "orca").data) with
         | some d => [d]
         | none => [])) ∧
    (pyIsDigit (stripS "orca").data = false → isScientificName (stripS "orca") = true →
      search_worms_species_fast c2OraclesW2 "orca" = c2OraclesW2.robust (stripS "orca")) ∧
    (pyIsDigit (stripS "orca").data = false → isScientificName (stripS "orca") = false →
      search_worms_species_fast c2OraclesW2 "orca" =
        (if (c2OraclesW2.robust (stripS "orca")).isEmpty then
          (if (c2OraclesW2.byCommonName (stripS "orca")).isEmpty then
            c2OraclesW2.fuzzyCommon (stripS "orca")
           else c2OraclesW2.byCommonName (stripS "orca"))
         else c2OraclesW2.robust (stripS "orca")).take 10) :=
  c2_fallback_order_amended c2OraclesW2 "orca" (by decide)

/-! ## BrowseSampler: browse_marine_animals_fast (lines 1693-1755)

The per-term search results are an oracle; `terms` is the seed catalog in
its post-shuffle order (the shuffle itself is nondeterministic by design).
Only the `aphia_id` field of a result record is read by the browse logic. -/

structure BSpecies where
  aphiaId : Nat
deriving DecidableEq, Repr

/-- The inner `for species_data in search_results` loop (lines 1728-1742):
skip falsy or already-seen ids; append (and remember) a record only once
the accumulated count has reached `offset`; stop as soon as
`offset + limit` records are accumulated. -/
def browseInner (offset limit : Nat) :
    List Nat → List BSpecies → List BSpecies → List Nat × List BSpecies
  | seen, acc, [] => (seen, acc)
  | seen, acc, sp :: rest =>
    if sp.aphiaId = 0 ∨ sp.aphiaId ∈ seen then
      browseInner offset limit seen acc rest
    else
      let seen2 := if offset ≤ acc.length then seen ++ [sp.aphiaId] else seen
      let acc2 := if offset ≤ acc.length then acc ++ [sp] else acc
      if offset + limit ≤ acc2.length then (seen2, acc2)
      else browseInner offset limit seen2 acc2 rest

/-- The outer `for search_term in all_search_terms` loop (lines 1720-1748),
which stops once `offset + limit` records are accumulated; the pacing
delay between seed terms does not affect the collected list. -/
def browseOuter (search : String → List BSpecies) (offset limit : Nat) :
    List String → List Nat → List BSpecies → List BSpecies
  | [], _, acc => acc
  | t :: ts, seen, acc =>
    if offset + limit ≤ acc.length then acc
    else
      let p := browseInner offset limit seen acc (search t)
      browseOuter search offset limit ts p.1 p.2

/-- `browse_marine_animals_fast`: run the loops over the shuffled seed
terms, then return the slice
`marine_species[min(offset, len) : min(offset + limit, len)]`
(lines 1752-1755). -/
def browse_marine_animals_fast (search : String → List BSpecies) (terms : List String)
    (offset limit : Nat) : List BSpecies :=
  let acc := browseOuter search offset limit terms [] []
  (acc.take (min (offset + limit) acc.length)).drop (min offset acc.length)

/-! ## Claim C3 (code bug) -/

def c3SearchW : String → List BSpecies := fun _ => (List.range 25).map (fun i => ⟨i + 1⟩)

def c3TermsW : List String := ["whale"]

/-- C3 names a code bug: records are appended only once
`len(marine_species) >= offset` (line 1736), but the count can only grow by
appending, so for any positive offset nothing is ever collected and the
returned slice is empty.  With a seed catalog offering 25 distinct species,
`sample(0, 20)` returns 20 distinct species but `sample(20, 5)` returns the
empty list instead of the next 5. -/
theorem c3_positive_offset_empty :
    browse_marine_animals_fast c3SearchW c3TermsW 20 5 = [] ∧
    (browse_marine_animals_fast c3SearchW c3TermsW 0 20).length = 20 := by
  decide

/-! ## EnrichmentAggregator: get_complete_species_data_parallel (lines 1144-1259)

The base-record fetch and the four parallel enrichment fetches
(classification tree, distribution list, OBIS occurrence statistics,
encyclopedic summary) are oracle parameters; a fetch that failed, timed
out or returned a falsy payload is `none`.  The extraction routines that
combine them are embedded below. -/

/-- The WoRMS classification tree: nested `child` records
(`extract_taxonomy_fast`, lines 1584-1603). -/
inductive CNode where
  | node (rank : String) (scientificname : String) (child : Option CNode)

structure DistEntry where
  locality : Option String
deriving DecidableEq, Repr

structure WikiData where
  description : String
  thumb_url : Option String
  title : String
  is_common_name : Bool
  url : String
deriving DecidableEq, Repr

structure EnrichResults where
  classification : Option CNode
  distribution : Option (List DistEntry)
  obis : Option ObisData
  wiki : Option WikiData

structure OccurrenceStats where
  total_records : Nat
  has_depth_data : Bool
  has_coordinates : Bool
  year_range : Option String
deriving DecidableEq, Repr

/-- Python truthiness of an optional string: present and non-empty. -/
def truthyStr : Option String → Bool
  | none => false
  | some s => !(s == "")

/-- Python `a or b` for an optional/falsy string `a`. -/
def pyOrStr (a : Option String) (b : String) : String :=
  match a with
  | some s => if s == "" then b else s
  | none => b

/-- Python f-string rendering of a possibly-`None` string. -/
def pyShowOpt : Option String → String
  | some s => s
  | none => "None"

def joinSep (sep : String) : List String → String
  | [] => ""
  | [x] => x
  | x :: xs => x ++ sep ++ joinSep sep xs

def takeBeforeChar (c : Char) : List Char → List Char
  | [] => []
  | h :: t => if h == c then [] else h :: takeBeforeChar c t

def pyMinInt : List Int → Int
  | [] => 0
  | x :: xs => xs.foldl min x

def pyMaxInt : List Int → Int
  | [] => 0
  | x :: xs => xs.foldl max x

/-- `extract_habitat_info_fast` (lines 1371-1412): base habitat from the
marine/brackish flags, habitat types from keyword hits in the lowered
environment text (dict order preserved), plus a depth zone when OBIS data
is available; the classification argument is accepted but never read, as
in the source. -/
def extract_habitat_info_fast (record : WormsRecord) (_classification : Option CNode)
    (obis : Option ObisData) : String :=
  let habitat :=
    if record.isMarine then
      (if record.isBrackish then "Marine/Brackish" else "Marine")
    else "Marine"
  let env := record.environment.toLower
  let kw : List (String × String) :=
    [("benthic", "Benthic"), ("pelagic", "Pelagic"), ("demersal", "Demersal"),
     ("reef", "Coral Reef"), ("coral", "Coral Reef"), ("intertidal", "Intertidal"),
     ("subtidal", "Subtidal")]
  let types1 := (kw.filter (fun p => substr p.1 env)).map (fun p => p.2)
  let types2 :=
    match obis with
    | some o =>
      (match extract_depth_from_obis_fast (some o) record with
       | some d =>
         types1 ++ [if d.avg_depth < 200 then "Epipelagic"
                    else if d.avg_depth < 1000 then "Mesopelagic"
                    else "Deep Sea"]
       | none => types1)
    | none => types1
  if types2.isEmpty then habitat
  else habitat ++ " (" ++ joinSep ", " (types2.take 3) ++ ")"

/-- First truthy value among the `locality`, `waterBody`, `country` fields
of one occurrence (lines 1489-1494). -/
def firstTruthy : List (Option String) → Option String
  | [] => none
  | some s :: rest => if s == "" then firstTruthy rest else some s
  | none :: rest => firstTruthy rest

/-- The `for sep in [';', ',', '|']` scan over the WoRMS free-text
distribution (lines 1500-1505): at the first separator present whose
leading fragment strips to something non-empty, take that fragment. -/
def sepScan (txt : String) : List Char → Option String
  | [] => none
  | sep :: rest =>
    if substr (String.mk [sep]) txt then
      (let fp := stripS (String.mk (takeBeforeChar sep txt.data))
       if fp == "" then sepScan txt rest else some fp)
    else sepScan txt rest

/-- `extract_distribution_fast` (lines 1470-1510): localities from the
WoRMS distribution endpoint (first 5), then one place name per OBIS
occurrence (first 5), then — only if still empty — a fragment of the
record's own free-text distribution; the Python `set` is modelled with
first-seen insertion order; cap at 4, falling back to the placeholder. -/
def extract_distribution_fast (dist : Option (List DistEntry)) (obis : Option ObisData)
    (record : WormsRecord) : List String :=
  let d1 : List String :=
    match dist with
    | some l =>
      (l.take 5).foldl
        (fun acc e =>
          match e.locality with
          | some s => if s == "" then acc else dedupAppend acc s
          | none => acc) []
    | none => []
  let d2 : List String :=
    match obis with
    | some o =>
      (o.occurrences.results.take 5).foldl
        (fun acc occ =>
          match firstTruthy [occ.locality, occ.waterBody, occ.country] with
          | some v => dedupAppend acc v
          | none => acc) d1
    | none => d1
  let d3 : List String :=
    if d2.isEmpty then
      (match record.distribution with
       | some txt =>
         if txt == "" then d2
         else
           let d2a :=
             match sepScan txt [';', ',', '|'] with
             | some fp => dedupAppend d2 fp
             | none => d2
           if d2a.isEmpty && !(stripS txt == "") then dedupAppend d2a (stripS txt)
           else d2a
       | none => d2)
    else d2
  if d3.isEmpty then ["Global distribution"] else d3.take 4

/-- The recursive walk of `extract_taxonomy_fast`: record each non-empty
lowered rank on first sight, then descend into `child`. -/
def taxWalk : CNode → List (String × String) → List (String × String)
  | .node rank name child, acc =>
    let r := rank.toLower
    let acc2 :=
      if !(r == "") && !(name == "") && !(acc.any (fun p => p.1 == r)) then
        acc ++ [(r, name)]
      else acc
    match child with
    | some c => taxWalk c acc2
    | none => acc2

def extract_taxonomy_fast : Option CNode → List (String × String)
  | none => []
  | some c => taxWalk c []

/-- `extract_occurrence_stats_fast` (lines 1547-1582): total from the OBIS
payload, depth/coordinate presence flags and the year range over the first
10 occurrence records. -/
def extract_occurrence_stats_fast (obis : Option ObisData) : OccurrenceStats :=
  match obis with
  | none => ⟨0, false, false, none⟩
  | some o =>
    if o.occurrences.results.isEmpty then ⟨o.occurrences.total, false, false, none⟩
    else
      let first10 := o.occurrences.results.take 10
      let hasDepth := first10.any (fun occ => occ.depth.isSome)
      let hasCoord :=
        first10.any (fun occ => occ.decimalLatitude.isSome && occ.decimalLongitude.isSome)
      let years := first10.filterMap
        (fun occ =>
          match occ.year with
          | some y => if y = 0 then none else some y
          | none => none)
      let yr :=
        if years.isEmpty then none
        else some (toString (pyMinInt years) ++ "-" ++ toString (pyMaxInt years))
      ⟨o.occurrences.total, hasDepth, hasCoord, yr⟩

/-- The scan over the first two vernacular entries (lines 1266-1277):
an English vernacular returns immediately; otherwise the first non-empty
name is remembered. -/
def vernScan : List Vernacular → String → Option String × String
  | [], acc => (none, acc)
  | v :: rest, acc =>
    let name := stripS v.vernacular
    if name == "" then vernScan rest acc
    else if v.language.toLower == "english" then (some name, acc)
    else if acc == "" then vernScan rest name
    else vernScan rest acc

/-- `extract_common_name_fast` (lines 1261-1290): vernacular entries first,
then the record's `valid_vernacular`, then a non-binomial Wikipedia title,
then a non-binomial search term other than "null", finally the remembered
vernacular or the scientific name. -/
def extract_common_name_fast (record : WormsRecord) (wiki : Option WikiData)
    (searchTerm : Option String) (scientificName : Option String) : Option String :=
  let scan := vernScan (record.vernaculars.take 2) ""
  match scan.1 with
  | some n => some n
  | none =>
    let acc := scan.2
    let wikiTitle := match wiki with | some w => w.title | none => ""
    if acc == "" && truthyStr record.valid_vernacular then
      some (stripS (record.valid_vernacular.getD ""))
    else if acc == "" && !(wikiTitle == "") && !(matchesSciPattern wikiTitle.data) then
      some wikiTitle
    else if acc == "" && truthyStr searchTerm && !(searchTerm.getD "" == "null") &&
        !(matchesSciPattern (searchTerm.getD "").data) then
      some (searchTerm.getD "")
    else if acc == "" then scientificName else some acc

/-- `create_description_fast` (lines 1292-1326): a sufficiently long
Wikipedia extract wins; otherwise a templated sentence from the common
name, habitat, distribution and depth zone. -/
def create_description_fast (commonName : Option String) (scientificName : Option String)
    (habitat : String) (distribution : List String) (depth : Option DepthInfo)
    (_record : WormsRecord) (wiki : Option WikiData) : String :=
  let wikiDesc := match wiki with | some w => w.description | none => ""
  if !(wikiDesc == "") && 30 < (stripS wikiDesc).length then wikiDesc
  else
    let p1 :=
      match commonName with
      | some s =>
        if !(s == "") && !(scientificName == some s) then
          "The " ++ s ++ " (" ++ pyShowOpt scientificName ++ ")"
        else "The marine species " ++ pyShowOpt scientificName
      | none => "The marine species " ++ pyShowOpt scientificName
    let p2 :=
      if habitat == "" then "is a marine species."
      else
        let simple :=
          if substr "(" habitat then stripS (String.mk (takeBeforeChar '(' habitat.data))
          else habitat
        "is a " ++ simple.toLower ++ " species."
    let p3 :=
      if distribution.isEmpty then ([] : List String)
      else ["It is found in " ++ joinSep ", " (distribution.take 2) ++ "."]
    let p4 :=
      match depth with
      | some d =>
        ["This species inhabits " ++
          (if d.avg_depth < 200 then "shallow coastal waters"
           else if d.avg_depth < 1000 then "moderate depths"
           else "deep ocean waters") ++ "."]
      | none => ([] : List String)
    joinSep " " ([p1, p2] ++ p3 ++ p4)

/-- `determine_image_source_fast` (lines 1328-1340): registry image first,
encyclopedic thumbnail second, none third. -/
def determine_image_source_fast (wormsImage : Option String) (wiki : Option WikiData) :
    Option String × Option String :=
  if truthyStr wormsImage then (wormsImage, some "WoRMS")
  else
    let thumb := match wiki with | some w => w.thumb_url | none => none
    if truthyStr thumb then (thumb, some "Wikipedia")
    else (none, none)

structure SpeciesRecord where
  title : String
  common_name : Option String
  latin_name : Option String
  aphia_id : Nat
  habitat : String
  depth_info : Option DepthInfo
  distribution : List String
  ocean_basins : List String
  occurrence_stats : OccurrenceStats
  extract : String
  thumb_url : Option String
  image_source : Option String
  wiki_url : Option String
  taxonomy : List (String × String)
  source : String
  is_marine : Bool
  is_brackish : Bool
  is_freshwater : Bool
  is_terrestrial : Bool
deriving DecidableEq, Repr

/-- `get_complete_species_data_parallel` (lines 1144-1259): fail on a falsy
aphia id, a missing base record, or a record with neither a usable
scientific name nor a usable valid name; otherwise assemble the record
from the four enrichment outcomes via the extraction routines — each of
which tolerates `none` — so the aggregate is always produced. -/
def get_complete_species_data_parallel (fetchRecord : Nat → Option WormsRecord)
    (enrich : EnrichResults) (wormsImage : Option String) (aphiaId : Nat)
    (searchTerm : Option String) : Option SpeciesRecord :=
  if aphiaId = 0 then none
  else
    match fetchRecord aphiaId with
    | none => none
    | some record =>
      if !truthyStr record.scientificname && !truthyStr record.valid_name then none
      else
        let scientificName := record.scientificname
        let habitat := extract_habitat_info_fast record enrich.classification enrich.obis
        let depthInfo := extract_depth_from_obis_fast enrich.obis record
        let dist := extract_distribution_fast enrich.distribution enrich.obis record
        let taxonomy := extract_taxonomy_fast enrich.classification
        let basins := extract_ocean_basins_fast enrich.obis
        let stats := extract_occurrence_stats_fast enrich.obis
        let commonName := extract_common_name_fast record enrich.wiki searchTerm scientificName
        let descr := create_description_fast commonName scientificName habitat dist
          depthInfo record enrich.wiki
        let img := determine_image_source_fast wormsImage enrich.wiki
        some ⟨pyOrStr record.valid_name (record.scientificname.getD "Unknown"),
          commonName, scientificName, aphiaId, habitat, depthInfo, dist, basins, stats,
          descr, img.1, img.2,
          (match enrich.wiki with | some w => some w.url | none => none),
          taxonomy, "worms_obis",
          record.isMarine, record.isBrackish, record.isFreshwater, record.isTerrestrial⟩

/-! ## Claim C9 -/

/-- C9: for a non-falsy taxon id, enrichment returns absent exactly when
the base taxon record cannot be fetched or carries no usable name; the
four enrichment fetch outcomes (each possibly failed, i.e. `none`) are
universally quantified, so any combination of their failures still yields
a `SpeciesRecord`, never an absent result. -/
theorem c9_enrichment_absent_iff (fetchRecord : Nat → Option WormsRecord)
    (enrich : EnrichResults) (wormsImage : Option String) (aphiaId : Nat)
    (searchTerm : Option String) (h0 : aphiaId ≠ 0) :
    (get_complete_species_data_parallel fetchRecord enrich wormsImage aphiaId
        searchTerm).isNone =
      (match fetchRecord aphiaId with
       | none => true
       | some r => !truthyStr r.scientificname && !truthyStr r.valid_name) := by
  unfold get_complete_species_data_parallel
  rw [if_neg h0]
  rcases hf : fetchRecord aphiaId with _ | r
  · rfl
  · cases hb : (!truthyStr r.scientificname && !truthyStr r.valid_name) <;> simp [hb]

def c9RecW : WormsRecord :=
  ⟨some "Orcinus orca", some "Orcinus orca", none, [], true, false, false, false, "", none⟩

def c9FetchW : Nat → Option WormsRecord := fun _ => some c9RecW

def c9EnrichW : EnrichResults := ⟨none, none, none, none⟩

/-- Witness for C9: a fetchable base record with a usable name and all four
enrichment fetches failed still produces a record (isNone = false). -/
theorem c9_enrichment_absent_iff_witness :
    (get_complete_species_data_parallel c9FetchW c9EnrichW none 7 none).isNone =
      (match c9FetchW 7 with
       | none => true
       | some r => !truthyStr r.scientificname && !truthyStr r.valid_name) :=
  c9_enrichment_absent_iff c9FetchW c9EnrichW none 7 none (by decide)

end MarineScope
